import Mathlib

/-!
Shallow embedding of the akatsuki headless API generator core
(packages/akatsuki-cli/src/commands/api): the entity schema AST and its
derivations (schema.rs), the per-artifact render contexts
(generator_contexts.rs, generator.rs), the template text filters
(templates/mod.rs), and the batch-generation orchestration (mod.rs).

Machine strings are modelled as Lean `String`; character case queries
(`is_uppercase`, `to_lowercase`, `to_uppercase`) are modelled by Lean's
ASCII `Char.isUpper`, `Char.toLower`, `Char.toUpper`, which agree with the
Rust functions on the ASCII inputs all claims range over.  Rust `HashSet`
membership is modelled as membership in the list of collected elements.
-/

namespace Akatsuki

/-- `FieldType` from schema.rs: the closed tag of field types. -/
inductive FieldType where
  | string
  | number
  | integer
  | boolean
  | uuid
  | timestamp
  | enum
  | array
  | json
deriving DecidableEq, Repr

/-- `FieldType::as_str` from schema.rs. -/
def FieldType.as_str : FieldType → String
  | .string => "string"
  | .number => "number"
  | .integer => "integer"
  | .boolean => "boolean"
  | .uuid => "uuid"
  | .timestamp => "timestamp"
  | .enum => "enum"
  | .array => "array"
  | .json => "json"

/-- `Validation` from schema.rs.  The numeric `min`/`max` bounds are `f64`
in the source and are never read by any function embedded here, so they
are omitted from the model. -/
structure Validation where
  min_length : Option Nat
  max_length : Option Nat
  email : Bool
  url : Bool
  pattern : Option String
deriving DecidableEq, Repr

/-- `Field` from schema.rs. -/
structure Field where
  name : String
  db_name : String
  field_type : FieldType
  required : Bool
  default : Option String
  primary_key : Bool
  references : Option String
  on_delete : Option String
  index : Bool
  index_type : Option String
  unique : Bool
  enum_values : Option (List String)
  array_type : Option String
  validation : Option Validation
  auto_update : Bool
deriving DecidableEq, Repr

/-- `OperationType` from schema.rs. -/
inductive OperationType where
  | list
  | get
  | create
  | update
  | delete
  | custom
deriving DecidableEq, Repr

/-- `OperationType::as_str` from schema.rs. -/
def OperationType.as_str : OperationType → String
  | .list => "list"
  | .get => "get"
  | .create => "create"
  | .update => "update"
  | .delete => "delete"
  | .custom => "custom"

/-- `Operation` from schema.rs. -/
structure Operation where
  op_type : OperationType
  name : Option String
  description : Option String
  filters : List String
  limit : Option Nat
deriving DecidableEq, Repr

/-- `RLSPolicy` from schema.rs (`using` / `withCheck` renamed to avoid
clashing with Lean tactic keywords). -/
structure RLSPolicy where
  action : String
  name : String
  usingExpr : Option String
  withCheck : Option String
deriving DecidableEq, Repr

/-- `Example` from schema.rs. -/
structure DocExample where
  title : String
  code : String
deriving DecidableEq, Repr

/-- `Documentation` from schema.rs. -/
structure Documentation where
  description : Option String
  examples : List DocExample
deriving DecidableEq, Repr

/-- `EntitySchema` from schema.rs. -/
structure EntitySchema where
  name : String
  table_name : String
  fields : List Field
  operations : List Operation
  rls : List RLSPolicy
  documentation : Option Documentation
deriving DecidableEq, Repr

/-- `EntitySchema::get_field` from schema.rs. -/
def EntitySchema.get_field (s : EntitySchema) (name : String) : Option Field :=
  s.fields.find? (fun f => f.name == name)

/-- `EntitySchema::writable_fields` from schema.rs: exclude the primary key
and the two standard timestamp fields. -/
def EntitySchema.writable_fields (s : EntitySchema) : List Field :=
  s.fields.filter (fun f => !f.primary_key && f.name != "createdAt" && f.name != "updatedAt")

/-- `EntitySchema::updatable_fields` from schema.rs: additionally exclude
the owner-reference `userId` field. -/
def EntitySchema.updatable_fields (s : EntitySchema) : List Field :=
  s.fields.filter (fun f =>
    !f.primary_key && f.name != "userId" && f.name != "createdAt" && f.name != "updatedAt")

/-- `EntitySchema::indexed_fields` from schema.rs. -/
def EntitySchema.indexed_fields (s : EntitySchema) : List Field :=
  s.fields.filter (fun f => f.index)

/-- `EntitySchema::enum_fields` from schema.rs. -/
def EntitySchema.enum_fields (s : EntitySchema) : List Field :=
  s.fields.filter (fun f => f.field_type == FieldType.enum)

/-- The names of a schema's enum fields (the contents of the
`enum_field_names` hash sets built in generator_contexts.rs and
generator.rs). -/
def enumFieldNames (s : EntitySchema) : List String :=
  s.enum_fields.map Field.name

/-- `Field::array_element_sql_type` from schema.rs. -/
def Field.array_element_sql_type (element_type : String) : String :=
  if element_type == "string" then "TEXT"
  else if element_type == "number" then "INTEGER"
  else if element_type == "boolean" then "BOOLEAN"
  else if element_type == "uuid" then "UUID"
  else "TEXT"

/-- `Field::sql_type` from schema.rs. -/
def Field.sql_type (f : Field) : String :=
  match f.field_type with
  | .string => "TEXT"
  | .number => "NUMERIC"
  | .integer => "INTEGER"
  | .boolean => "BOOLEAN"
  | .uuid => "UUID"
  | .timestamp => "TIMESTAMPTZ"
  | .enum => "TEXT"
  | .array =>
    match f.array_type with
    | some t => Field.array_element_sql_type t ++ "[]"
    | none => "TEXT[]"
  | .json => "JSONB"

/-- `Field::typescript_element_type` from schema.rs. -/
def Field.typescript_element_type (element_type : String) : String :=
  if element_type == "string" then "string"
  else if element_type == "number" then "number"
  else if element_type == "boolean" then "boolean"
  else if element_type == "uuid" then "string"
  else "any"

/-- `Field::typescript_type` from schema.rs. -/
def Field.typescript_type (f : Field) : String :=
  match f.field_type with
  | .string => "string"
  | .number => "number"
  | .integer => "number"
  | .boolean => "boolean"
  | .uuid => "string"
  | .timestamp => "string"
  | .enum =>
    match f.enum_values with
    | some values => "\x27" ++ String.intercalate "\x27 | \x27" values ++ "\x27"
    | none => "string"
  | .array =>
    match f.array_type with
    | some t => Field.typescript_element_type t ++ "[]"
    | none => "string[]"
  | .json => "Record<string, any>"

/-- `Field::typescript_default` from schema.rs: optional (non-required)
fields default to `null`; required fields get a type-specific default. -/
def Field.typescript_default (f : Field) : String :=
  if !f.required then "null"
  else
    match f.field_type with
    | .string => "\x27\x27"
    | .number => "0"
    | .integer => "0"
    | .boolean => "false"
    | .array => "[]"
    | .json => "\x7b\x7d"
    | .enum =>
      match f.enum_values with
      | some values => "\x27" ++ (values.headD "") ++ "\x27"
      | none => "\x27\x27"
    | _ => "null"

/-- `Field::zod_element_type` from schema.rs. -/
def Field.zod_element_type (element_type : String) : String :=
  if element_type == "string" then "z.string()"
  else if element_type == "number" then "z.number()"
  else if element_type == "boolean" then "z.boolean()"
  else if element_type == "uuid" then "z.string().uuid()"
  else "z.any()"

/-- `Field::zod_type` from schema.rs. -/
def Field.zod_type (f : Field) : String :=
  match f.field_type with
  | .string =>
    let zod := "z.string()"
    let zod := match f.validation with
      | none => zod
      | some v =>
        let zod := match v.min_length with
          | some n => zod ++ ".min(" ++ toString n ++ ")"
          | none => zod
        let zod := match v.max_length with
          | some n => zod ++ ".max(" ++ toString n ++ ")"
          | none => zod
        let zod := if v.email then zod ++ ".email()" else zod
        if v.url then zod ++ ".url()" else zod
    zod
  | .number => "z.number()"
  | .integer => "z.number().int()"
  | .boolean => "z.boolean()"
  | .uuid => "z.string().uuid()"
  | .timestamp => "z.string()"
  | .enum =>
    match f.enum_values with
    | some values =>
      "z.enum([" ++ String.intercalate ", " (values.map (fun v => "\x27" ++ v ++ "\x27")) ++ "])"
    | none => "z.string()"
  | .array =>
    match f.array_type with
    | some t => "z.array(" ++ Field.zod_element_type t ++ ")"
    | none => "z.array(z.string())"
  | .json => "z.record(z.any())"

/-! ### Render contexts from generator_contexts.rs -/

namespace Ctx

/-- `FieldContext` from generator_contexts.rs. -/
structure FieldContext where
  name : String
  db_name : String
  typescript_type : String
  typescript_default : String
  required : Bool
deriving DecidableEq, Repr

/-- `IntoContext<FieldContext> for Field` from generator_contexts.rs. -/
def fieldToContext (f : Field) : FieldContext :=
  { name := f.name
    db_name := f.db_name
    typescript_type := f.typescript_type
    typescript_default := f.typescript_default
    required := f.required }

/-- `EnumFieldContext` from generator_contexts.rs. -/
structure EnumFieldContext where
  name : String
  db_name : String
  enum_values : List String
deriving DecidableEq, Repr

/-- `IntoContext<EnumFieldContext> for Field` from generator_contexts.rs. -/
def fieldToEnumContext (f : Field) : EnumFieldContext :=
  { name := f.name
    db_name := f.db_name
    enum_values := f.enum_values.getD [] }

/-- `OperationContext` from generator_contexts.rs. -/
structure OperationContext where
  op_type : String
  name : Option String
  description : Option String
  filters : List String
  limit : Option Nat
deriving DecidableEq, Repr

/-- `OperationContextBuilder::build` from generator_contexts.rs, with the
builder's `exclude_enum_fields_from_filters` flag made an explicit
argument: when set, operation filters drop every enum field name. -/
def buildOperationContexts (s : EntitySchema) (excludeEnumFields : Bool) :
    List OperationContext :=
  let enum_field_names : List String :=
    if excludeEnumFields then s.enum_fields.map Field.name else []
  s.operations.map (fun op =>
    { op_type := op.op_type.as_str
      name := op.name
      description := op.description
      filters := op.filters.filter (fun f => !(enum_field_names.contains f))
      limit := op.limit })

/-- `fields_to_context` from generator_contexts.rs. -/
def fields_to_context (fields : List Field) : List FieldContext :=
  fields.map fieldToContext

/-- `enum_fields_to_context` from generator_contexts.rs. -/
def enum_fields_to_context (s : EntitySchema) : List EnumFieldContext :=
  s.enum_fields.map fieldToEnumContext

/-- `ServiceContext` from generator_contexts.rs. -/
structure ServiceContext where
  name : String
  table_name : String
  operations : List OperationContext
  writable_fields : List FieldContext
  updatable_fields : List FieldContext
  enum_fields : List EnumFieldContext
deriving DecidableEq, Repr

/-- `ServiceContext::from_schema`: the service artifact does not apply
filter deduplication (its backend handles it). -/
def ServiceContext.from_schema (s : EntitySchema) : ServiceContext :=
  { name := s.name
    table_name := s.table_name
    operations := buildOperationContexts s false
    writable_fields := fields_to_context s.writable_fields
    updatable_fields := fields_to_context s.updatable_fields
    enum_fields := enum_fields_to_context s }

/-- `HookContext` from generator_contexts.rs. -/
structure HookContext where
  name : String
  table_name : String
  operations : List OperationContext
  writable_fields : List FieldContext
  updatable_fields : List FieldContext
  enum_fields : List EnumFieldContext
deriving DecidableEq, Repr

/-- `HookContext::from_schema`: the hook artifact applies filter
deduplication to avoid duplicate type definitions. -/
def HookContext.from_schema (s : EntitySchema) : HookContext :=
  { name := s.name
    table_name := s.table_name
    operations := buildOperationContexts s true
    writable_fields := fields_to_context s.writable_fields
    updatable_fields := fields_to_context s.updatable_fields
    enum_fields := enum_fields_to_context s }

/-- The names collected by `CLIClientContext::from_schema` for enum
conflict detection: every operation's `name`, regardless of operation
type (`filter_map(|op| op.name.clone())`). -/
def operationNames (s : EntitySchema) : List String :=
  s.operations.filterMap Operation.name

/-- `CLIClientContext` from generator_contexts.rs. -/
structure CLIClientContext where
  name : String
  table_name : String
  operations : List OperationContext
  writable_fields : List FieldContext
  updatable_fields : List FieldContext
  enum_fields : List EnumFieldContext
deriving DecidableEq, Repr

/-- `CLIClientContext::from_schema`: drops an enum field from
`enum_fields` when one of its enum values at index 1 or later equals a
collected operation name; builds operations without the enum-field filter
exclusion. -/
def CLIClientContext.from_schema (s : EntitySchema) : CLIClientContext :=
  let operation_names := operationNames s
  let enum_fields : List EnumFieldContext :=
    s.enum_fields.filterMap (fun f =>
      let enum_values := f.enum_values.getD []
      let has_conflict := (enum_values.drop 1).any (fun v => operation_names.contains v)
      if has_conflict then none else some (fieldToEnumContext f))
  { name := s.name
    table_name := s.table_name
    operations := buildOperationContexts s false
    writable_fields := fields_to_context s.writable_fields
    updatable_fields := fields_to_context s.updatable_fields
    enum_fields := enum_fields }

end Ctx

/-! ### Migration and Zod contexts from generator.rs -/

namespace Gen

/-- `FieldContext` from generator.rs (the migration template's field
view). -/
structure MigFieldContext where
  name : String
  db_name : String
  sql_type : String
  required : Bool
  default : Option String
  primary_key : Bool
  unique : Bool
  references : Option String
  on_delete : Option String
  enum_values : Option (List String)
  index : Bool
  index_type : Option String
deriving DecidableEq, Repr

/-- `RLSPolicyContext` from generator.rs. -/
structure RLSPolicyContext where
  action : String
  name : String
  usingExpr : Option String
  withCheck : Option String
deriving DecidableEq, Repr

/-- `DocumentationContext` from generator.rs. -/
structure DocumentationContext where
  description : Option String
deriving DecidableEq, Repr

/-- `MigrationContext` from generator.rs. -/
structure MigrationContext where
  name : String
  table_name : String
  fields : List MigFieldContext
  indexed_fields : List MigFieldContext
  rls : List RLSPolicyContext
  has_updated_at : Bool
  documentation : DocumentationContext
deriving DecidableEq, Repr

/-- The generated leading `id UUID PRIMARY KEY` column of
`MigrationContext::from_schema`. -/
def idFieldContext : MigFieldContext :=
  { name := "id", db_name := "id", sql_type := "UUID", required := true
    default := some "gen_random_uuid()", primary_key := true, unique := false
    references := none, on_delete := none, enum_values := none
    index := false, index_type := none }

/-- The generated owner-reference `user_id UUID REFERENCES auth.users(id)`
column of `MigrationContext::from_schema`. -/
def userIdFieldContext : MigFieldContext :=
  { name := "userId", db_name := "user_id", sql_type := "UUID", required := true
    default := none, primary_key := false, unique := false
    references := some "auth.users(id)", on_delete := some "CASCADE"
    enum_values := none, index := true, index_type := none }

/-- The trailing generated `created_at` column. -/
def createdAtFieldContext : MigFieldContext :=
  { name := "createdAt", db_name := "created_at", sql_type := "TIMESTAMPTZ"
    required := false, default := some "NOW()", primary_key := false
    unique := false, references := none, on_delete := none
    enum_values := none, index := false, index_type := none }

/-- The trailing generated `updated_at` column. -/
def updatedAtFieldContext : MigFieldContext :=
  { name := "updatedAt", db_name := "updated_at", sql_type := "TIMESTAMPTZ"
    required := false, default := some "NOW()", primary_key := false
    unique := false, references := none, on_delete := none
    enum_values := none, index := false, index_type := none }

/-- The `user_id` entry that `MigrationContext::from_schema` places at the
head of `indexed_fields`. -/
def userIdIndexContext : MigFieldContext :=
  { name := "userId", db_name := "user_id", sql_type := "UUID", required := true
    default := none, primary_key := false, unique := false
    references := none, on_delete := none, enum_values := none
    index := true, index_type := none }

/-- The default-quoting rule of `MigrationContext::from_schema`: enum and
string defaults get single quotes unless already quoted or a SQL function
call. -/
def quoteDefault (f : Field) : Option String :=
  f.default.map (fun d =>
    match f.field_type with
    | .enum | .string =>
      if d.startsWith "\x27" || d.startsWith "gen_random_uuid" || d.startsWith "NOW"
      then d
      else "\x27" ++ d ++ "\x27"
    | _ => d)

/-- The per-user-field conversion in step 2 of
`MigrationContext::from_schema`. -/
def migrationUserField (f : Field) : MigFieldContext :=
  { name := f.name
    db_name := f.db_name
    sql_type := f.sql_type
    required := f.required
    default := quoteDefault f
    primary_key := f.primary_key
    unique := f.unique
    references := f.references
    on_delete := f.on_delete
    enum_values := f.enum_values
    index := f.index
    index_type := f.index_type }

/-- The per-indexed-field conversion in step 4 of
`MigrationContext::from_schema` (no default quoting there). -/
def migrationIndexedField (f : Field) : MigFieldContext :=
  { name := f.name
    db_name := f.db_name
    sql_type := f.sql_type
    required := f.required
    default := f.default
    primary_key := f.primary_key
    unique := f.unique
    references := f.references
    on_delete := f.on_delete
    enum_values := f.enum_values
    index := f.index
    index_type := f.index_type }

/-- `MigrationContext::from_schema` from generator.rs. -/
def MigrationContext.from_schema (s : EntitySchema) : MigrationContext :=
  { name := s.name
    table_name := s.table_name
    fields :=
      [idFieldContext, userIdFieldContext]
        ++ s.fields.map migrationUserField
        ++ [createdAtFieldContext, updatedAtFieldContext]
    indexed_fields := userIdIndexContext :: s.indexed_fields.map migrationIndexedField
    rls := s.rls.map (fun p =>
      { action := p.action, name := p.name
        usingExpr := p.usingExpr, withCheck := p.withCheck })
    has_updated_at := true
    documentation := { description := s.documentation.bind Documentation.description } }

/-- `ZodFieldContext` from generator.rs. -/
structure ZodFieldContext where
  name : String
  db_name : String
  zod_type : String
  required : Bool
  enum_values : Option (List String)
deriving DecidableEq, Repr

/-- `OperationContext` from generator.rs (separate struct from the one in
generator_contexts.rs). -/
structure ZodOperationContext where
  op_type : String
  name : Option String
  description : Option String
  filters : List String
  limit : Option Nat
deriving DecidableEq, Repr

/-- `ZodSchemaContext` from generator.rs. -/
structure ZodSchemaContext where
  name : String
  table_name : String
  fields : List ZodFieldContext
  enum_fields : List ZodFieldContext
  writable_fields : List ZodFieldContext
  updatable_fields : List ZodFieldContext
  operations : List ZodOperationContext
deriving DecidableEq, Repr

/-- The field conversion used throughout `ZodSchemaContext::from_schema`. -/
def zodField (f : Field) : ZodFieldContext :=
  { name := f.name
    db_name := f.db_name
    zod_type := f.zod_type
    required := f.required
    enum_values := f.enum_values }

/-- `format!("{:?}", op_type).to_lowercase()` in
`ZodSchemaContext::from_schema`: the Debug name of each variant,
lowercased. -/
def zodOpTypeString : OperationType → String
  | .list => "list"
  | .get => "get"
  | .create => "create"
  | .update => "update"
  | .delete => "delete"
  | .custom => "custom"

/-- `ZodSchemaContext::from_schema` from generator.rs: operation filters
drop every enum field name. -/
def ZodSchemaContext.from_schema (s : EntitySchema) : ZodSchemaContext :=
  let enum_field_names : List String := s.enum_fields.map Field.name
  { name := s.name
    table_name := s.table_name
    fields := s.fields.map zodField
    enum_fields := s.enum_fields.map zodField
    writable_fields := s.writable_fields.map zodField
    updatable_fields := s.updatable_fields.map zodField
    operations := s.operations.map (fun op =>
      { op_type := zodOpTypeString op.op_type
        name := op.name
        description := op.description
        filters := op.filters.filter (fun f => !(enum_field_names.contains f))
        limit := op.limit }) }

end Gen

/-! ### Template text filters from templates/mod.rs -/

namespace Tpl

/-- Rust `str::ends_with`, written on the character list so that it
evaluates inside the kernel. -/
def strEndsWith (s suf : String) : Bool :=
  suf.toList == s.toList.drop (s.toList.length - suf.toList.length)

/-- Dropping the last `n` characters of a string (the Rust code's
`&s[..s.len() - n]` byte slices always cut at an ASCII suffix, where byte
count and character count agree). -/
def strDropRight (s : String) (n : Nat) : String :=
  String.mk (s.toList.take (s.toList.length - n))

/-- `filters::snake_case` from templates/mod.rs: one pass over the
indexed characters, writing `_` before every uppercase letter past index
0 and lowercasing every character. -/
def snake_case (s : String) : String :=
  String.mk (s.toList.enum.flatMap (fun p =>
    if p.2.isUpper && p.1 != 0 then ['_', p.2.toLower] else [p.2.toLower]))

/-- The character-list state machine of `filters::camel_case`:
`capitalizeNext` is the Rust loop's `capitalize_next` flag. -/
def camelChars : List Char → Bool → List Char
  | [], _ => []
  | c :: rest, capitalizeNext =>
    if c = '_' then camelChars rest true
    else if capitalizeNext then c.toUpper :: camelChars rest false
    else c :: camelChars rest false

/-- `filters::camel_case` from templates/mod.rs. -/
def camel_case (s : String) : String :=
  String.mk (camelChars s.toList false)

/-- `filters::pascal_case` from templates/mod.rs: `camel_case`, then the
first character uppercased. -/
def pascal_case (s : String) : String :=
  match (camel_case s).toList with
  | [] => ""
  | c :: rest => String.mk (c.toUpper :: rest)

/-- `filters::kebab_case` from templates/mod.rs: `snake_case` with every
`_` replaced by `-`. -/
def kebab_case (s : String) : String :=
  String.mk ((snake_case s).toList.map (fun c => if c = '_' then '-' else c))

/-- `filters::singular` from templates/mod.rs.  The Rust code slices off
trailing bytes; because every matched suffix is ASCII, dropping that many
characters is the same operation. -/
def singular (s : String) : String :=
  if strEndsWith s "ies" then strDropRight s 3 ++ "y"
  else if strEndsWith s "ses" || strEndsWith s "zes" || strEndsWith s "xes" then strDropRight s 2
  else if strEndsWith s "s" then strDropRight s 1
  else s

/-- `filters::upper` from templates/mod.rs (ASCII model of
`str::to_uppercase`). -/
def upper (s : String) : String :=
  String.mk (s.toList.map Char.toUpper)

/-- `filters::lower` from templates/mod.rs (ASCII model of
`str::to_lowercase`). -/
def lower (s : String) : String :=
  String.mk (s.toList.map Char.toLower)

end Tpl

/-! ### Batch generation from mod.rs (`ApiCommand::generate_batch`)

The batch loop's per-file effects (YAML parsing, code generation, disk
writes) are abstracted as a `FileOutcome` input per file; the fold below
mirrors the loop's counter updates, its per-file ledger `results`, and
the final `bail!` iff any file failed. -/

namespace Batch

/-- The four ways one schema file's processing can end inside
`generate_batch`. -/
inductive FileOutcome where
  | parseError (msg : String)
  | genError (entity : String) (msg : String)
  | writeError (entity : String) (msg : String)
  | success (entity : String)
deriving DecidableEq, Repr

/-- Whether the outcome increments `error_count`. -/
def FileOutcome.isFailure : FileOutcome → Bool
  | .success _ => false
  | _ => true

/-- The entry pushed onto `results` for one file: `generate_batch` records
the file name for a parse failure but the parsed entity name for a
generation or write failure (and for success). -/
def resultEntry (fileName : String) : FileOutcome → String × Bool × String
  | .parseError msg => (fileName, false, msg)
  | .genError entity msg => (entity, false, msg)
  | .writeError entity msg => (entity, false, msg)
  | .success entity => (entity, true, "OK")

/-- The summary state of `generate_batch` after the loop: the two
counters, the `results` ledger, and whether the function returned `Ok`
(it bails iff `error_count > 0`). -/
structure BatchSummary where
  success_count : Nat
  error_count : Nat
  results : List (String × Bool × String)
  ok : Bool
deriving DecidableEq, Repr

/-- One iteration of the `generate_batch` loop. -/
def batchStep (acc : Nat × Nat × List (String × Bool × String))
    (file : String × FileOutcome) : Nat × Nat × List (String × Bool × String) :=
  if file.2.isFailure
  then (acc.1, acc.2.1 + 1, acc.2.2 ++ [resultEntry file.1 file.2])
  else (acc.1 + 1, acc.2.1, acc.2.2 ++ [resultEntry file.1 file.2])

/-- `ApiCommand::generate_batch` from mod.rs over abstract per-file
outcomes. -/
def generateBatch (files : List (String × FileOutcome)) : BatchSummary :=
  let r := files.foldl batchStep (0, 0, [])
  { success_count := r.1
    error_count := r.2.1
    results := r.2.2
    ok := r.2.1 == 0 }

end Batch

/-! ### Spec-side definitions for the refinement parts of the claims -/

/-- The spec's first phase of `snake_case`: insert `_` before each
uppercase letter except the first character (no case change yet). -/
def underscoreBeforeUpper (s : String) : List Char :=
  s.toList.enum.flatMap (fun p =>
    if p.2.isUpper && p.1 != 0 then ['_', p.2] else [p.2])

/-- The spec's description of `snake_case` as two phases: insert
underscores, then lowercase everything. -/
def snakeCaseSpec (s : String) : String :=
  String.mk ((underscoreBeforeUpper s).map Char.toLower)

/-- The spec's "uppercasing the first character" step of `pascal_case`. -/
def upperFirstSpec (s : String) : String :=
  match s.toList with
  | [] => ""
  | c :: rest => String.mk (c.toUpper :: rest)

/-- The spec's "each underscore replaced by a hyphen" step of
`kebab_case`. -/
def dashForUnderscoreSpec (s : String) : String :=
  String.mk (s.toList.map (fun c => if c = '_' then '-' else c))

/-! ### Shared helper lemmas -/

/-- Negated `List.contains` agrees with decidable non-membership. -/
theorem not_contains_eq_decide_not_mem (names : List String) (f : String) :
    (!(names.contains f)) = decide (f ∉ names) := by
  by_cases h : f ∈ names <;> simp [h]

/-- Filtering by non-membership in the empty list keeps every element. -/
theorem filter_not_contains_nil (l : List String) :
    (l.filter (fun f => !(([] : List String).contains f))) = l := by
  simp

/-- A `filterMap` whose function returns `none` exactly on a Boolean test
is a `filter` followed by a `map`. -/
theorem filterMap_ite_none {α β : Type} (p : α → Bool) (g : α → β) (l : List α) :
    l.filterMap (fun a => if p a then none else some (g a))
      = (l.filter (fun a => !p a)).map g := by
  induction l with
  | nil => rfl
  | cons a t ih =>
    by_cases h : p a <;> simp [List.filterMap_cons, List.filter_cons, h, ih]

/-- Filtering by a stronger predicate yields a sublist of filtering by a
weaker one. -/
theorem filter_sublist_filter {α : Type} (p q : α → Bool)
    (h : ∀ a, p a = true → q a = true) (l : List α) :
    (l.filter p).Sublist (l.filter q) := by
  induction l with
  | nil => simp
  | cons a t ih =>
    by_cases hp : p a
    · have hq := h a hp
      simp [List.filter_cons, hp, hq]
      exact ih
    · by_cases hq : q a <;> simp [List.filter_cons, hp, hq]
      · exact ih.cons a
      · exact ih

/-- Closed form of the `generate_batch` fold: counters add up per class
of outcome and the ledger collects one entry per file, in order. -/
theorem batch_foldl_closed (files : List (String × Batch.FileOutcome))
    (acc : Nat × Nat × List (String × Bool × String)) :
    files.foldl Batch.batchStep acc
      = (acc.1 + (files.filter (fun p => !p.2.isFailure)).length,
         acc.2.1 + (files.filter (fun p => p.2.isFailure)).length,
         acc.2.2 ++ files.map (fun p => Batch.resultEntry p.1 p.2)) := by
  induction files generalizing acc with
  | nil => simp
  | cons a t ih =>
    by_cases h : a.2.isFailure <;>
      simp [List.foldl_cons, Batch.batchStep, h, ih, List.filter_cons] <;>
      omega

/-! ### Sample schemas used by witnesses and counterexamples -/

/-- Mirror of `impl Default for Field` from schema.rs. -/
def defaultField : Field :=
  { name := "", db_name := "", field_type := .string, required := false
    default := none, primary_key := false, references := none
    on_delete := none, index := false, index_type := none, unique := false
    enum_values := none, array_type := none, validation := none
    auto_update := false }

/-- A plain required string field named `title`. -/
def titleField : Field :=
  { defaultField with name := "title", db_name := "title"
                      field_type := .string, required := true }

/-- An indexed enum field named `type` with values `video`, `image`. -/
def typeField : Field :=
  { defaultField with name := "type", db_name := "type"
                      field_type := .enum, required := true
                      enum_values := some ["video", "image"], index := true }

/-- A schema with an enum field `type`, a `List` operation filtering on
`type` and `title`, and a `Custom` operation `my` filtering on `type` and
`userId`. -/
def sampleSchema : EntitySchema :=
  { name := "Material"
    table_name := "materials"
    fields := [titleField, typeField]
    operations :=
      [{ op_type := .list, name := none, description := none
         filters := ["type", "title"], limit := none },
       { op_type := .custom, name := some "my", description := none
         filters := ["type", "userId"], limit := none }]
    rls := []
    documentation := none }

/-- A schema whose only operation is a `List` operation carrying the name
`published` (no custom operation), with an enum field whose second value
is `published`. -/
def namedListOpSchema : EntitySchema :=
  { name := "Post"
    table_name := "posts"
    fields := [{ defaultField with
                   name := "status", db_name := "status", field_type := .enum
                   required := true, enum_values := some ["draft", "published"] }]
    operations :=
      [{ op_type := .list, name := some "published", description := none
         filters := [], limit := none }]
    rls := []
    documentation := none }

/-- An optional enum field with a declared default and enum values. -/
def optionalEnumField : Field :=
  { defaultField with name := "status", db_name := "status"
                      field_type := .enum, required := false
                      enum_values := some ["draft", "published"]
                      default := some "draft" }

/-! ### Claim theorems -/

/-- C1: for every schema, the hook context's operation filters are the
declared filters with every enum field name removed (so no enum field
name, such as `"type"`, survives in any hook operation's filters), while
the service context's operation filters are the declared filters retained
unmodified. -/
theorem hook_excludes_enum_filters_service_retains (s : EntitySchema) :
    ((Ctx.HookContext.from_schema s).operations.map Ctx.OperationContext.filters
        = s.operations.map (fun op =>
            op.filters.filter (fun f => decide (f ∉ enumFieldNames s)))) ∧
    ((Ctx.ServiceContext.from_schema s).operations.map Ctx.OperationContext.filters
        = s.operations.map Operation.filters) ∧
    (∀ op ∈ (Ctx.HookContext.from_schema s).operations,
      ∀ f ∈ op.filters, f ∉ enumFieldNames s) := by
  refine ⟨?_, ?_, ?_⟩
  · unfold Ctx.HookContext.from_schema Ctx.buildOperationContexts
    simp only [if_pos, List.map_map]
    apply List.map_congr_left
    intro op _
    apply List.filter_congr
    intro f _
    exact not_contains_eq_decide_not_mem (enumFieldNames s) f
  · unfold Ctx.ServiceContext.from_schema Ctx.buildOperationContexts
    simp only [if_neg, Bool.false_eq_true, not_false_iff, List.map_map]
    apply List.map_congr_left
    intro op _
    exact filter_not_contains_nil op.filters
  · intro op hop f hf
    unfold Ctx.HookContext.from_schema Ctx.buildOperationContexts at hop
    simp only [List.mem_map] at hop
    obtain ⟨op0, _, rfl⟩ := hop
    simp only [List.mem_filter] at hf
    have h2 : (!((enumFieldNames s).contains f)) = true := hf.2
    rw [not_contains_eq_decide_not_mem] at h2
    exact of_decide_eq_true h2

/-- C1 witness: in the hook context of `sampleSchema` the `List`
operation keeps the non-enum filter `title`, and by the theorem it
follows that `title` names no enum field of the schema. -/
theorem hook_excludes_enum_filters_service_retains_witness :
    ("title" : String) ∉ enumFieldNames sampleSchema :=
  (hook_excludes_enum_filters_service_retains sampleSchema).2.2
    { op_type := "list", name := none, description := none
      filters := ["title"], limit := none }
    (by decide) "title" (by decide)

/-- C2: contrary to the claim (and to the builder's own doc comment,
which says the enum-field filter exclusion is for the Hook and CLIClient
contexts), `CLIClientContext::from_schema` builds its operations without
the exclusion: for every schema the command-line-client operation filters
are the declared filters verbatim, and on `sampleSchema` the enum field
name `type` survives in both operations' filters. -/
theorem cli_client_filters_retain_enum_names :
    (∀ s : EntitySchema,
      (Ctx.CLIClientContext.from_schema s).operations.map Ctx.OperationContext.filters
        = s.operations.map Operation.filters) ∧
    ((Ctx.CLIClientContext.from_schema sampleSchema).operations.map
        Ctx.OperationContext.filters = [["type", "title"], ["type", "userId"]]) ∧
    "type" ∈ enumFieldNames sampleSchema := by
  refine ⟨?_, by decide, by decide⟩
  intro s
  unfold Ctx.CLIClientContext.from_schema Ctx.buildOperationContexts
  simp only [List.map_map]
  apply List.map_congr_left
  intro op _
  exact filter_not_contains_nil op.filters

/-- C3 counterexample: in `namedListOpSchema` the only operation is a
`List` operation (not `Custom`) named `published`, yet the enum field
`status`, whose second value is `published`, is dropped from the
command-line-client context's `enum_fields` — so absence is not
characterized by custom operation names alone. -/
theorem cli_enum_field_dropped_without_custom_op :
    ((Ctx.CLIClientContext.from_schema namedListOpSchema).enum_fields = []) ∧
    (namedListOpSchema.enum_fields.map Field.name = ["status"]) ∧
    ((namedListOpSchema.operations.filter
        (fun op => op.op_type == OperationType.custom)) = []) := by
  decide

/-- C3 amended: an enum field is dropped from the command-line-client
context's `enum_fields` exactly when some enum value of the field other
than the first equals the name carried by any declared operation
(regardless of operation type); every enum field without such a conflict
appears. -/
theorem cli_enum_fields_conflict_rule (s : EntitySchema) :
    ((Ctx.CLIClientContext.from_schema s).enum_fields
        = (s.enum_fields.filter (fun f =>
            !(((f.enum_values.getD []).drop 1).any
                (fun v => (Ctx.operationNames s).contains v)))).map
            Ctx.fieldToEnumContext) ∧
    (∀ f ∈ s.enum_fields,
      (((f.enum_values.getD []).drop 1).any
          (fun v => (Ctx.operationNames s).contains v)) = false →
        Ctx.fieldToEnumContext f ∈ (Ctx.CLIClientContext.from_schema s).enum_fields) := by
  have hmain :
      (Ctx.CLIClientContext.from_schema s).enum_fields
        = (s.enum_fields.filter (fun f =>
            !(((f.enum_values.getD []).drop 1).any
                (fun v => (Ctx.operationNames s).contains v)))).map
            Ctx.fieldToEnumContext := by
    unfold Ctx.CLIClientContext.from_schema
    exact filterMap_ite_none _ _ _
  refine ⟨hmain, ?_⟩
  intro f hf hconflict
  rw [hmain]
  exact List.mem_map_of_mem Ctx.fieldToEnumContext
    (List.mem_filter.mpr ⟨hf, by rw [Bool.not_eq_true']; exact hconflict⟩)

/-- C3 amended witness: in `sampleSchema` the enum field `type` has no
enum value past the first matching any operation name, so its context
appears in the command-line-client `enum_fields`. -/
theorem cli_enum_fields_conflict_rule_witness :
    Ctx.fieldToEnumContext typeField
      ∈ (Ctx.CLIClientContext.from_schema sampleSchema).enum_fields :=
  (cli_enum_fields_conflict_rule sampleSchema).2 typeField (by decide) (by decide)

/-- C4: the migration context's column list is exactly the generated id
column, then the owner-reference `user_id` column, then the user-declared
fields in declared order, then `created_at`, then `updated_at`; and its
indexed-column list is exactly the owner-reference `user_id` column
followed by the user-declared fields flagged `index = true`, in declared
order. -/
theorem migration_field_order (s : EntitySchema) :
    ((Gen.MigrationContext.from_schema s).fields.map Gen.MigFieldContext.name
        = ["id", "userId"] ++ s.fields.map Field.name ++ ["createdAt", "updatedAt"]) ∧
    ((Gen.MigrationContext.from_schema s).fields.map Gen.MigFieldContext.db_name
        = ["id", "user_id"] ++ s.fields.map Field.db_name
            ++ ["created_at", "updated_at"]) ∧
    ((Gen.MigrationContext.from_schema s).indexed_fields.map Gen.MigFieldContext.name
        = "userId" :: (s.fields.filter (fun f => f.index)).map Field.name) ∧
    ((Gen.MigrationContext.from_schema s).indexed_fields.map
        Gen.MigFieldContext.db_name
        = "user_id" :: (s.fields.filter (fun f => f.index)).map Field.db_name) := by
  refine ⟨?_, ?_, ?_, ?_⟩ <;>
    simp [Gen.MigrationContext.from_schema, EntitySchema.indexed_fields,
      Gen.idFieldContext, Gen.userIdFieldContext, Gen.createdAtFieldContext,
      Gen.updatedAtFieldContext, Gen.userIdIndexContext, List.map_map,
      Gen.migrationUserField, Gen.migrationIndexedField, Function.comp]

/-- C5: for every schema, no writable field is the primary key or one of
the two standard timestamp fields; the updatable fields form a sublist
(hence a subset) of the writable fields; and the owner-reference `userId`
field is never updatable. -/
theorem writable_updatable_views (s : EntitySchema) :
    (∀ f ∈ s.writable_fields,
      f.primary_key = false ∧ f.name ≠ "createdAt" ∧ f.name ≠ "updatedAt") ∧
    s.updatable_fields.Sublist s.writable_fields ∧
    (∀ f ∈ s.updatable_fields, f.name ≠ "userId") := by
  refine ⟨?_, ?_, ?_⟩
  · intro f hf
    have h := (List.mem_filter.mp hf).2
    simp only [Bool.and_eq_true, Bool.not_eq_true', bne_iff_ne] at h
    exact ⟨h.1.1, h.1.2, h.2⟩
  · exact filter_sublist_filter _ _
      (by intro f h
          simp only [Bool.and_eq_true, Bool.not_eq_true', bne_iff_ne] at h ⊢
          exact ⟨⟨h.1.1.1, h.1.2⟩, h.2⟩) s.fields
  · intro f hf
    have h := (List.mem_filter.mp hf).2
    simp only [Bool.and_eq_true, Bool.not_eq_true', bne_iff_ne] at h
    exact h.1.1.2

/-- C5 witness: the required string field `title` of `sampleSchema` is
writable, and by the theorem it is not the primary key nor a timestamp
field. -/
theorem writable_updatable_views_witness :
    titleField.primary_key = false ∧ titleField.name ≠ "createdAt"
      ∧ titleField.name ≠ "updatedAt" :=
  (writable_updatable_views sampleSchema).1 titleField (by decide)

/-- C6 counterexample: for a batch whose single file `a.yaml` parses but
fails at the write step, the process reports failure, yet the failure
ledger (and the printed failure line) carries the parsed entity name
`Material` — no entry names the offending file `a.yaml`, contrary to the
claim that each failure is reported with the offending file name. -/
theorem generate_batch_failure_names_entity_not_file :
    ((Batch.generateBatch
        [("a.yaml", Batch.FileOutcome.writeError "Material" "disk full")]).ok
      = false) ∧
    ((Batch.generateBatch
        [("a.yaml", Batch.FileOutcome.writeError "Material" "disk full")]).results
      = [("Material", false, "disk full")]) ∧
    ((Batch.generateBatch
        [("a.yaml", Batch.FileOutcome.writeError "Material" "disk full")]).results.all
        (fun e => e.1 != "a.yaml") = true) := by
  decide

/-- C6 amended: batch generation processes every file (one ledger entry
per input file, in order, so a failure never stops the remaining files);
the summary counts successes and failures; each failure is recorded with
its error message and a name — the schema file name when parsing failed,
otherwise the parsed entity name; and the process result is `Ok` iff no
file failed. -/
theorem generate_batch_isolation (files : List (String × Batch.FileOutcome)) :
    ((Batch.generateBatch files).results
        = files.map (fun p => Batch.resultEntry p.1 p.2)) ∧
    ((Batch.generateBatch files).results.length = files.length) ∧
    ((Batch.generateBatch files).success_count
        = (files.filter (fun p => !p.2.isFailure)).length) ∧
    ((Batch.generateBatch files).error_count
        = (files.filter (fun p => p.2.isFailure)).length) ∧
    ((Batch.generateBatch files).ok = true ↔ ∀ p ∈ files, p.2.isFailure = false) ∧
    (∀ fileName msg, (fileName, Batch.FileOutcome.parseError msg) ∈ files →
        (fileName, false, msg) ∈ (Batch.generateBatch files).results) ∧
    (∀ fileName entity msg,
        (fileName, Batch.FileOutcome.genError entity msg) ∈ files →
        (entity, false, msg) ∈ (Batch.generateBatch files).results) ∧
    (∀ fileName entity msg,
        (fileName, Batch.FileOutcome.writeError entity msg) ∈ files →
        (entity, false, msg) ∈ (Batch.generateBatch files).results) := by
  have hfold := batch_foldl_closed files (0, 0, [])
  have hres : (Batch.generateBatch files).results
      = files.map (fun p => Batch.resultEntry p.1 p.2) := by
    simp [Batch.generateBatch, hfold]
  have herr : (Batch.generateBatch files).error_count
      = (files.filter (fun p => p.2.isFailure)).length := by
    simp [Batch.generateBatch, hfold]
  refine ⟨hres, by simp [hres], by simp [Batch.generateBatch, hfold], herr,
    ?_, ?_, ?_, ?_⟩
  · have hok : (Batch.generateBatch files).ok
        = ((Batch.generateBatch files).error_count == 0) := by
      simp [Batch.generateBatch, hfold]
    rw [hok, herr]
    simp [List.length_eq_zero, List.filter_eq_nil_iff]
  · intro fileName msg hmem
    rw [hres]
    exact List.mem_map_of_mem (fun p => Batch.resultEntry p.1 p.2) hmem
  · intro fileName entity msg hmem
    rw [hres]
    exact List.mem_map_of_mem (fun p => Batch.resultEntry p.1 p.2) hmem
  · intro fileName entity msg hmem
    rw [hres]
    exact List.mem_map_of_mem (fun p => Batch.resultEntry p.1 p.2) hmem

/-- C6 amended witness: in a two-file batch where `a.yaml` fails to parse
and `b.yaml` succeeds, the ledger contains the failure entry naming
`a.yaml` with its parse error message. -/
theorem generate_batch_isolation_witness :
    ("a.yaml", false, "bad yaml")
      ∈ (Batch.generateBatch
          [("a.yaml", Batch.FileOutcome.parseError "bad yaml"),
           ("b.yaml", Batch.FileOutcome.success "Post")]).results :=
  (generate_batch_isolation
      [("a.yaml", Batch.FileOutcome.parseError "bad yaml"),
       ("b.yaml", Batch.FileOutcome.success "Post")]).2.2.2.2.2.1
    "a.yaml" "bad yaml" (by decide)

/-- C7: the `singular` filter maps `categories` to `category`, `boxes` to
`box`, and leaves `cat` unchanged; in general it rewrites a trailing
`ies` to `y`, else drops two characters after a trailing `ses`, `zes` or
`xes`, else drops a single trailing `s`, else returns the input
unchanged. -/
theorem singular_depluralization :
    Tpl.singular "categories" = "category" ∧
    Tpl.singular "boxes" = "box" ∧
    Tpl.singular "cat" = "cat" ∧
    ∀ s : String,
      (Tpl.strEndsWith s "ies" = true →
        Tpl.singular s = Tpl.strDropRight s 3 ++ "y") ∧
      (Tpl.strEndsWith s "ies" = false →
        (Tpl.strEndsWith s "ses" || Tpl.strEndsWith s "zes"
            || Tpl.strEndsWith s "xes") = true →
        Tpl.singular s = Tpl.strDropRight s 2) ∧
      (Tpl.strEndsWith s "ies" = false →
        (Tpl.strEndsWith s "ses" || Tpl.strEndsWith s "zes"
            || Tpl.strEndsWith s "xes") = false →
        Tpl.strEndsWith s "s" = true →
        Tpl.singular s = Tpl.strDropRight s 1) ∧
      (Tpl.strEndsWith s "ies" = false →
        (Tpl.strEndsWith s "ses" || Tpl.strEndsWith s "zes"
            || Tpl.strEndsWith s "xes") = false →
        Tpl.strEndsWith s "s" = false →
        Tpl.singular s = s) := by
  refine ⟨by decide, by decide, by decide, ?_⟩
  intro s
  refine ⟨?_, ?_, ?_, ?_⟩
  · intro h1
    simp [Tpl.singular, h1]
  · intro h1 h2
    simp [Tpl.singular, h1, h2]
  · intro h1 h2 h3
    simp [Tpl.singular, h1, h2, h3]
  · intro h1 h2 h3
    simp [Tpl.singular, h1, h2, h3]

/-- C7 witness: applying the trailing-`ies` rule at the concrete input
`stories` yields `story`. -/
theorem singular_depluralization_witness : Tpl.singular "stories" = "story" := by
  have h := (singular_depluralization.2.2.2 "stories").1 (by decide)
  exact h.trans (by decide)

/-- C8: the case filters satisfy the four claimed examples; `snake_case`
equals the spec's two-phase description (insert `_` before each uppercase
letter except the first character, then lowercase everything);
`pascal_case` is `camel_case` followed by uppercasing the first
character; and `kebab_case` is `snake_case` with each underscore replaced
by a hyphen. -/
theorem case_conversion_filters :
    Tpl.snake_case "UserProfile" = "user_profile" ∧
    Tpl.camel_case "user_profile" = "userProfile" ∧
    Tpl.pascal_case "user_profile" = "UserProfile" ∧
    Tpl.kebab_case "UserProfile" = "user-profile" ∧
    (∀ s : String, Tpl.snake_case s = snakeCaseSpec s) ∧
    (∀ s : String, Tpl.pascal_case s = upperFirstSpec (Tpl.camel_case s)) ∧
    (∀ s : String, Tpl.kebab_case s = dashForUnderscoreSpec (Tpl.snake_case s)) := by
  refine ⟨by decide, by decide, by decide, by decide, ?_, fun s => rfl, fun s => rfl⟩
  intro s
  unfold Tpl.snake_case snakeCaseSpec underscoreBeforeUpper
  congr 1
  rw [List.map_flatMap]
  congr 1
  funext p
  by_cases h : p.2.isUpper && p.1 != 0 <;> simp [h]

/-- C9: the validation-schema (Zod) context also removes enum field names
from operation filters: each operation's filters are the declared filters
with every enum field name removed, so no surviving filter names an enum
field. -/
theorem zod_filters_exclude_enum_names (s : EntitySchema) :
    ((Gen.ZodSchemaContext.from_schema s).operations.map
        Gen.ZodOperationContext.filters
        = s.operations.map (fun op =>
            op.filters.filter (fun f => decide (f ∉ enumFieldNames s)))) ∧
    (∀ op ∈ (Gen.ZodSchemaContext.from_schema s).operations,
      ∀ f ∈ op.filters, f ∉ enumFieldNames s) := by
  constructor
  · unfold Gen.ZodSchemaContext.from_schema
    simp only [List.map_map]
    apply List.map_congr_left
    intro op _
    apply List.filter_congr
    intro f _
    exact not_contains_eq_decide_not_mem (enumFieldNames s) f
  · intro op hop f hf
    unfold Gen.ZodSchemaContext.from_schema at hop
    simp only [List.mem_map] at hop
    obtain ⟨op0, _, rfl⟩ := hop
    simp only [List.mem_filter] at hf
    have h2 : (!((enumFieldNames s).contains f)) = true := hf.2
    rw [not_contains_eq_decide_not_mem] at h2
    exact of_decide_eq_true h2

/-- C9 witness: in the Zod context of `sampleSchema` the custom operation
keeps the non-enum filter `userId`, and by the theorem `userId` names no
enum field of the schema. -/
theorem zod_filters_exclude_enum_names_witness :
    ("userId" : String) ∉ enumFieldNames sampleSchema :=
  (zod_filters_exclude_enum_names sampleSchema).2
    { op_type := "custom", name := some "my", description := none
      filters := ["userId"], limit := none }
    (by decide) "userId" (by decide)

/-- C10: a non-required field's TypeScript default is always the string
`null`, regardless of its type, declared default, or enum values; and
conversely any non-`null` TypeScript default can only come from a
required field. -/
theorem typescript_default_null_for_optional (f : Field) :
    (f.required = false → f.typescript_default = "null") ∧
    (f.typescript_default ≠ "null" → f.required = true) := by
  have hmain : f.required = false → f.typescript_default = "null" := by
    intro h
    simp [Field.typescript_default, h]
  refine ⟨hmain, ?_⟩
  intro hne
  cases hr : f.required with
  | true => rfl
  | false => exact absurd (hmain hr) hne

/-- C10 witness: the optional enum field (which carries both enum values
and a declared default) still gets the TypeScript default `null`. -/
theorem typescript_default_null_for_optional_witness :
    optionalEnumField.typescript_default = "null" :=
  (typescript_default_null_for_optional optionalEnumField).1 rfl

end Akatsuki
